import Mathlib

/-!
Verification development for `python/lsst/meas/deblender/sim.py`.

The file embeds the computational core of the module — the peak table
builders (`buildPeakTable`, `buildFootprintPeakTable`, sim.py lines 56-152),
the peak-to-truth matcher (`matchToRef`, lines 154-303) and the SED
normalizer (`calculateSedsFromFlux`, lines 464-494) — as executable Lean
definitions, and proves the behavioural properties stated about them.

Modelling conventions, used throughout:

* Astropy tables become Lean lists of structure rows; a row's dynamically
  keyed per-filter columns (`"flux_" + f`, `"intensity_" + f`) become
  functions from the filter name to the stored value.
* Python floats become exact rationals (`ℚ`).  `scipy.spatial.cKDTree.query`
  returns the Euclidean distance, which is irrational in general, so the
  embedding carries the squared distance `dist2` instead; since distances
  and any meaningful threshold are nonnegative, the source comparison
  `d2 < maxSeparation` (line 198) is embedded as
  `0 ≤ maxSep ∧ dist2 < maxSep ^ 2`, which is equivalent over the reals.
* Python code that raises (indexing an empty table, `None[fidx]`,
  `np.max` of an empty array, kd-tree construction over an empty
  coordinate array) is embedded with `Option`: `none` is an uncaught
  exception.
* Nearest-neighbour ties are broken toward the lowest truth index, the
  deterministic tie-break rule left open by the source.
* The iteration order of the Python set difference on line 223 is
  unspecified; the embedding enumerates the undetected indices in
  ascending order.  Every property proved here is order-insensitive.
* All plotting / logging (lines 238-302 and the `display` machinery) is
  I/O with no influence on the returned tables and is not embedded.
-/

namespace DeblenderSim

/-- Row of the ground-truth simulated catalog (`simTable`), as produced by
`loadSimCatalog` (sim.py lines 21-33): identifier, pixel coordinates,
per-filter flux, per-filter intensity cutout (flattened to a list of pixel
values), SED vector, size and redshift. -/
structure SimRow where
  sid : ℤ
  x : ℚ
  y : ℚ
  flux : String → ℚ
  intensity : String → List ℚ
  sed : List ℚ
  size : ℚ
  redshift : ℚ

/-- Default `SimRow` used only as the out-of-range default of `List.getD`;
every theorem below accesses rows at indexes proved to be in range. -/
def dSim : SimRow :=
  { sid := 0, x := 0, y := 0, flux := fun _ => 0, intensity := fun _ => []
    sed := [], size := 0, redshift := 0 }

/-- A peak inside a footprint: the integer pixel coordinates returned by
`peak.getIx()` / `peak.getIy()` (sim.py lines 94-95), kept in `ℚ` because
they are subsequently mixed with the rational truth coordinates. -/
structure SimPeak where
  ix : ℚ
  iy : ℚ
deriving DecidableEq

/-- A merged detection (`src` in sim.py lines 131-137): the source id and
the ordered peak list of its footprint. -/
structure MergedSource where
  sid : ℤ
  peaks : List SimPeak
deriving DecidableEq

/-- Row of the peak table built by `buildPeakTable` /
`buildFootprintPeakTable` (sim.py lines 99-100, 146-147): parent id, peak
index within the parent, coordinates and the blended flag.  The `peak` and
`parent footprint` object-reference columns are opaque handles into the
afw library and the per-filter flux columns are initialized to NaN
("unknown") and only filled by later deblending stages; none of them
influence the functions verified here, so they are not carried. -/
structure PeakRow where
  parent : ℤ
  peakIdx : ℕ
  x : ℚ
  y : ℚ
  blended : Bool
deriving DecidableEq

/-- Default `PeakRow` for `List.getD`; never reached at a proved index. -/
def dPeak : PeakRow := { parent := 0, peakIdx := 0, x := 0, y := 0, blended := false }

/-- Row of the match table returned by `matchToRef` (sim.py lines
202-218): the gathered truth attributes plus the `matched`, `distance` and
`duplicate` columns.  `dist2` is the square of the reported distance (see
the header on the distance embedding). -/
structure MatchRow where
  sid : ℤ
  x : ℚ
  y : ℚ
  flux : String → ℚ
  intensity : String → List ℚ
  sed : List ℚ
  size : ℚ
  redshift : ℚ
  matched : Bool
  dist2 : ℚ
  duplicate : Bool

/-- Default `MatchRow` for `List.getD`; never reached at a proved index. -/
def dRow : MatchRow :=
  { sid := 0, x := 0, y := 0, flux := fun _ => 0, intensity := fun _ => []
    sed := [], size := 0, redshift := 0, matched := false, dist2 := 0
    duplicate := false }

/-- Row of the unmatched (undetected truth sources) table: the original
truth row together with the per-filter peak/noise ratio column appended on
sim.py lines 228-236. -/
structure UnmatchedRow where
  src : SimRow
  ratioVals : List ℚ

/-- The triple returned by `matchToRef` (sim.py line 303). -/
structure MatchResult where
  matchTable : List MatchRow
  idx : List ℕ
  unmatchedTable : List UnmatchedRow

/-- Default `MatchResult`, the out-of-range default for `Option.getD`. -/
def dRes : MatchResult := { matchTable := [], idx := [], unmatchedTable := [] }

/-- Squared Euclidean distance between a peak and a truth source; the
kd-tree query of sim.py line 196 minimizes the Euclidean distance, and
minimizing the square is equivalent. -/
def sqDist (px py sx sy : ℚ) : ℚ :=
  (px - sx) ^ 2 + (py - sy) ^ 2

/-- Fold of the linear scan equivalent to the kd-tree nearest-neighbour
query: `best` is the (index, squared distance) of the best candidate seen
so far, `i` the index of the head of the remaining list.  The strict `<`
keeps the earlier candidate on ties, so the lowest truth index wins. -/
def nearestAux (px py : ℚ) : List SimRow → ℕ → ℕ × ℚ → ℕ × ℚ
  | [], _, best => best
  | s :: rest, i, best =>
    nearestAux px py rest (i + 1)
      (if sqDist px py s.x s.y < best.2 then (i, sqDist px py s.x s.y) else best)

/-- Index of the nearest truth source and the squared distance to it, for
one query point — the per-peak content of `kdtree.query` on sim.py line
196.  The `[]` case is unreachable in `matchToRef`, which errors out
earlier when the truth table is empty (the kd-tree of line 195 cannot be
built over an empty coordinate array). -/
def nearest (px py : ℚ) : List SimRow → ℕ × ℚ
  | [] => (0, 0)
  | s :: rest => nearestAux px py rest 1 (0, sqDist px py s.x s.y)

/-- The full query result: one (nearest index, squared distance) pair per
peak, in peak-table order. -/
def nnOf (sims : List SimRow) (peaks : List PeakRow) : List (ℕ × ℚ) :=
  peaks.map fun p => nearest p.x p.y sims

/-- Embedding of `kdtree.query(peakCoords, n_jobs=poolSize)` (sim.py line
196).  `n_jobs` only chooses how many worker processes the query points
are split across; every point's nearest neighbour is a pure function of
the tree and that point, so the result does not depend on `poolSize`. -/
def kdQuery (sims : List SimRow) (peaks : List PeakRow) (poolSize : ℤ) : List (ℕ × ℚ) :=
  let _ := poolSize
  nnOf sims peaks

/-- The thresholding of sim.py line 198, `matched = d2 < maxSeparation`,
on squared distances: over the reals `d < maxSep` (with `d ≥ 0`) holds iff
`0 ≤ maxSep ∧ d² < maxSep²`. -/
def matchedFlag (maxSep d2 : ℚ) : Bool :=
  decide (0 ≤ maxSep ∧ d2 < maxSep ^ 2)

/-- Per-peak (nearest truth index, matched flag) pairs — the `idx` and
`matched` arrays of sim.py lines 196-198. -/
def matchPairs (sims : List SimRow) (peaks : List PeakRow) (maxSep : ℚ) : List (ℕ × Bool) :=
  (nnOf sims peaks).map fun q => (q.1, matchedFlag maxSep q.2)

/-- Number of matched peaks whose nearest truth index is `j` — the
occurrence count that `np.unique(idx[matched], return_counts=True)`
computes on sim.py line 200. -/
def matchCount (pairs : List (ℕ × Bool)) (j : ℕ) : ℕ :=
  (pairs.filter fun q => q.2 && decide (q.1 = j)).length

/-- Distinct truth indices matched within threshold by at least one peak —
the set `sidx = set(idx[matched])` of sim.py line 221, as a list. -/
def matchedIdxList (sims : List SimRow) (peaks : List PeakRow) (maxSep : ℚ) : List ℕ :=
  ((matchPairs sims peaks maxSep).filter fun q => q.2).map Prod.fst

/-- The undetected truth indices `srange - sidx` of sim.py lines 221-223,
enumerated in ascending order (the Python set iteration order is
unspecified; all proved properties are order-insensitive). -/
def undetected (sims : List SimRow) (peaks : List PeakRow) (maxSep : ℚ) : List ℕ :=
  (List.range sims.length).filter fun j => decide (j ∉ matchedIdxList sims peaks maxSep)

/-- The truth row gathered into row 0 of the match table,
`matchTable[...][0]` on sim.py lines 208-209: the truth source nearest to
the first peak. -/
def base0 (sims : List SimRow) (peaks : List PeakRow) : SimRow :=
  sims.getD ((nnOf sims peaks).headD (0, 0)).1 dSim

/-- Length of `emptySed = np.zeros_like(matchTable["sed"][0])` (sim.py
line 209). -/
def sedLenOf (sims : List SimRow) (peaks : List PeakRow) : ℕ :=
  (base0 sims peaks).sed.length

/-- The zero patch `emptyPatch =
np.zeros_like(matchTable["intensity_" + filters[0]][0])` of sim.py line
208 (a fixed-shape column in astropy, so any row's shape would do). -/
def emptyPatchOf (sims : List SimRow) (peaks : List PeakRow) (filters : List String) : List ℚ :=
  List.replicate ((base0 sims peaks).intensity (filters.headD "")).length (0 : ℚ)

/-- One row of the match table, for the peak `p` whose kd-query result is
`q = (nearest truth index, squared distance)`.  This is the per-row net
effect of sim.py lines 202-218:

* the truth attributes are gathered by nearest index (`simTable[idx]`,
  line 202);
* `matched`, `distance`, `duplicate` are the columns of lines 203-206
  (`duplicate` is true for a matched peak whose truth index is shared by
  more than one matched peak, false for every unmatched peak);
* for unmatched rows the loop of lines 211-218 overwrites the per-filter
  intensity with the zero patch, the per-filter flux, size and redshift
  with `0`, and the coordinates with the peak's own coordinates — only
  the columns named by `filters` are touched;
* the `sed` column is overwritten with the zero SED for EVERY row, matched
  or not: line 213 (`matchTable["sed"] = emptySed`) carries no
  `[~matched]` mask, unlike every neighbouring line, so the whole column
  is assigned.  The embedding reproduces this faithfully. -/
def rowFn (sims : List SimRow) (filters : List String) (maxSep : ℚ)
    (pairs : List (ℕ × Bool)) (emptyPatch : List ℚ) (sedLen : ℕ)
    (p : PeakRow) (q : ℕ × ℚ) : MatchRow :=
  let s := sims.getD q.1 dSim
  let m := matchedFlag maxSep q.2
  { sid := s.sid
    x := if m then s.x else p.x
    y := if m then s.y else p.y
    flux := fun f => if m then s.flux f else if f ∈ filters then 0 else s.flux f
    intensity := fun f =>
      if m then s.intensity f else if f ∈ filters then emptyPatch else s.intensity f
    sed := List.replicate sedLen (0 : ℚ)
    size := if m then s.size else 0
    redshift := if m then s.redshift else 0
    matched := m
    dist2 := q.2
    duplicate := m && decide (1 < matchCount pairs q.1) }

/-- Maximum of a pixel array, `np.max` on sim.py line 232: raises on an
empty array, hence `Option`. -/
def npMax : List ℚ → Option ℚ
  | [] => none
  | v :: vs => some (vs.foldl max v)

/-- The inner loop of sim.py lines 230-234 for one undetected truth row:
`ratio = np.max(simTable[sidx]["intensity_" + f]) / avgNoise[fidx]` for
each filter, where `i` is the running filter position `fidx`.  A noise
list shorter than the filter list raises IndexError (`none`). -/
def filterRatios (s : SimRow) (noise : List ℚ) : List String → ℕ → Option (List ℚ)
  | [], _ => some []
  | f :: fs, i =>
    match npMax (s.intensity f), noise.get? i with
    | some m, some nv =>
      match filterRatios s noise fs (i + 1) with
      | some rest => some ((m / nv) :: rest)
      | none => none
    | _, _ => none

/-- The undetected-source ratio loop of sim.py lines 228-236.  When the
undetected list is empty the loop body never runs, so `avgNoise` is never
dereferenced and the result is the empty table; otherwise a `None`
`avgNoise` raises TypeError at `avgNoise[fidx]` (`none` here). -/
def computeRatios (sims : List SimRow) (filters : List String)
    (avgNoise : Option (List ℚ)) : List ℕ → Option (List UnmatchedRow)
  | [] => some []
  | j :: js =>
    match avgNoise with
    | none => none
    | some noise =>
      match filterRatios (sims.getD j dSim) noise filters 0,
          computeRatios sims filters avgNoise js with
      | some rv, some rest => some ({ src := sims.getD j dSim, ratioVals := rv } :: rest)
      | _, _ => none

/-- Embedding of `matchToRef` (sim.py lines 154-303), restricted to its
computational effect (the returned triple); plotting and logging are I/O.

The guard embeds the three unconditional raises on degenerate input:
an empty truth table breaks the kd-tree build of line 195, an empty peak
table breaks the query of line 196 (coordinate array of the wrong shape),
and an empty filter list breaks `filters[0]` on line 208.  The `display`
and `calexp` parameters only drive plotting and are not carried. -/
def matchToRef (peaks : List PeakRow) (sims : List SimRow) (filters : List String)
    (maxSep : ℚ) (poolSize : ℤ) (avgNoise : Option (List ℚ)) : Option MatchResult :=
  if peaks.isEmpty || sims.isEmpty || filters.isEmpty then none
  else
    match computeRatios sims filters avgNoise (undetected sims peaks maxSep) with
    | none => none
    | some urows =>
      some { matchTable :=
               List.zipWith
                 (rowFn sims filters maxSep (matchPairs sims peaks maxSep)
                   (emptyPatchOf sims peaks filters) (sedLenOf sims peaks))
                 peaks (kdQuery sims peaks poolSize)
             idx := (kdQuery sims peaks poolSize).map Prod.fst
             unmatchedTable := urows }

/-- The successfully returned result (theorems use it under an `isSome`
hypothesis; the default is never reached there). -/
def mtGet (peaks : List PeakRow) (sims : List SimRow) (filters : List String)
    (maxSep : ℚ) (poolSize : ℤ) (avgNoise : Option (List ℚ)) : MatchResult :=
  (matchToRef peaks sims filters maxSep poolSize avgNoise).getD dRes

/-- Row `i` of the returned match table. -/
def mtRow (peaks : List PeakRow) (sims : List SimRow) (filters : List String)
    (maxSep : ℚ) (poolSize : ℤ) (avgNoise : Option (List ℚ)) (i : ℕ) : MatchRow :=
  (mtGet peaks sims filters maxSep poolSize avgNoise).matchTable.getD i dRow

/-- Embedding of `buildFootprintPeakTable` (sim.py lines 56-105): one row
per peak of the single footprint, the blended flag true iff the footprint
holds at least two peaks (lines 76-79), parent id defaulting to 0 when
`sid` is `None` (lines 88-89). -/
def buildFootprintPeakTable (fpPeaks : List SimPeak) (sid : Option ℤ) : List PeakRow :=
  let s := sid.getD 0
  fpPeaks.enum.map fun q =>
    { parent := s, peakIdx := q.1, x := q.2.ix, y := q.2.iy
      blended := decide (2 ≤ fpPeaks.length) }

/-- Embedding of `buildPeakTable` (sim.py lines 107-152): rows of all
parents concatenated in catalog order, each parent contributing one row
per peak with the blended flag true iff that parent has at least two peaks
(lines 134-137). -/
def buildPeakTable (srcs : List MergedSource) : List PeakRow :=
  srcs.flatMap fun src =>
    src.peaks.enum.map fun q =>
      { parent := src.sid, peakIdx := q.1, x := q.2.ix, y := q.2.iy
        blended := decide (2 ≤ src.peaks.length) }

/-- Embedding of `calculateSedsFromFlux` (sim.py lines 464-494): a table
row is its per-filter flux lookup; the flux matrix is read out in filter
order (line 489), the normalization is the row sum (line 490) and the SED
is the row divided by its own sum (line 491).  Rational division by zero
yields 0 where NumPy would produce NaN/inf with a warning; the zero-sum
case is outside every property proved here.  The `inPlace` flag of the
source only controls whether the caller's table is mutated and does not
change the returned pair. -/
def calculateSedsFromFlux (tbl : List (String → ℚ)) (filters : List String) :
    List (List ℚ) × List ℚ :=
  let fluxMat := tbl.map fun row => filters.map fun f => row f
  let normalization := fluxMat.map List.sum
  (List.zipWith (fun r s => r.map fun v => v / s) fluxMat normalization, normalization)

/-! Concrete inputs used by the end-to-end scenario, the counterexamples
and the witnesses. -/

/-- Truth source of the end-to-end scenario of the spec: id 1 at (10, 10)
with flux 100 in every filter. -/
def simA : SimRow :=
  { sid := 1, x := 10, y := 10, flux := fun _ => 100, intensity := fun _ => [5]
    sed := [1], size := 2, redshift := 1 }

/-- Peak of the end-to-end scenario: detection at (10, 11). -/
def peakA : PeakRow := { parent := 0, peakIdx := 0, x := 10, y := 11, blended := false }

/-- Truth source at the origin, used by the duplicate / undetected
scenarios. -/
def simB : SimRow :=
  { sid := 2, x := 0, y := 0, flux := fun _ => 50, intensity := fun _ => [3, 7]
    sed := [1, 0], size := 1, redshift := 0 }

/-- Second truth source at (0, 1), one pixel from `simB`. -/
def simC : SimRow :=
  { sid := 3, x := 0, y := 1, flux := fun _ => 20, intensity := fun _ => [2]
    sed := [0, 1], size := 1, redshift := 0 }

/-- Peak at the origin; two copies of it make the duplicate scenario. -/
def peakB : PeakRow := { parent := 7, peakIdx := 0, x := 0, y := 0, blended := true }

/-- Far-away peak used for the undetected-truth scenarios. -/
def peakC : PeakRow := { parent := 8, peakIdx := 0, x := 100, y := 100, blended := false }

/-- Two-parent detection catalog: parent 1 with a single peak, parent 2
with two peaks. -/
def srcsA : List MergedSource :=
  [ { sid := 1, peaks := [{ ix := 0, iy := 0 }] }
  , { sid := 2, peaks := [{ ix := 1, iy := 1 }, { ix := 2, iy := 2 }] } ]

/-! Helper lemmas. -/

/-- Indexing a mapped list inside its range evaluates the function at the
indexed element, for any defaults. -/
theorem getD_map_of_lt {α β : Type} (f : α → β) :
    ∀ (l : List α) (i : ℕ) (d : β) (d₀ : α), i < l.length →
      (l.map f).getD i d = f (l.getD i d₀)
  | [], i, _, _, h => absurd h (by simp)
  | _ :: _, 0, _, _, _ => rfl
  | _ :: l, i + 1, d, d₀, h =>
    getD_map_of_lt f l i d d₀ (by simpa using Nat.lt_of_succ_lt_succ h)

/-- Indexing a zipWith inside both ranges evaluates the function at the
two indexed elements, for any defaults. -/
theorem getD_zipWith_of_lt {α β γ : Type} (f : α → β → γ) :
    ∀ (l₁ : List α) (l₂ : List β) (i : ℕ) (d : γ) (d₁ : α) (d₂ : β),
      i < l₁.length → i < l₂.length →
      (List.zipWith f l₁ l₂).getD i d = f (l₁.getD i d₁) (l₂.getD i d₂)
  | [], _, i, _, _, _, h, _ => absurd h (by simp)
  | _ :: _, [], i, _, _, _, _, h => absurd h (by simp)
  | _ :: _, _ :: _, 0, _, _, _, _, _ => rfl
  | _ :: l₁, _ :: l₂, i + 1, d, d₁, d₂, h₁, h₂ =>
    getD_zipWith_of_lt f l₁ l₂ i d d₁ d₂
      (Nat.lt_of_succ_lt_succ h₁) (Nat.lt_of_succ_lt_succ h₂)

/-- The running best index of the nearest-neighbour scan stays below the
index following the scanned region. -/
theorem nearestAux_fst_lt (px py : ℚ) (l : List SimRow) :
    ∀ (i : ℕ) (best : ℕ × ℚ), best.1 < i →
      (nearestAux px py l i best).1 < i + l.length := by
  induction l with
  | nil => intro i best h; simpa [nearestAux] using h
  | cons s l ih =>
    intro i best h
    have hstep :
        (if sqDist px py s.x s.y < best.2 then (i, sqDist px py s.x s.y) else best).1 < i + 1 := by
      split
      · exact Nat.lt_succ_self i
      · exact Nat.lt_succ_of_lt h
    have hrec := ih (i + 1) _ hstep
    simp only [nearestAux, List.length_cons]
    omega

/-- The nearest index returned for a nonempty truth table is in range. -/
theorem nearest_fst_lt (px py : ℚ) (sims : List SimRow) (h : sims ≠ []) :
    (nearest px py sims).1 < sims.length := by
  match sims, h with
  | s :: rest, _ =>
    have hb := nearestAux_fst_lt px py rest 1 (0, sqDist px py s.x s.y) Nat.zero_lt_one
    simp only [nearest, List.length_cons]
    omega

/-- The scan result never exceeds the incoming best squared distance. -/
theorem nearestAux_snd_le_best (px py : ℚ) (l : List SimRow) :
    ∀ (i : ℕ) (best : ℕ × ℚ), (nearestAux px py l i best).2 ≤ best.2 := by
  induction l with
  | nil => intro i best; exact le_refl _
  | cons s l ih =>
    intro i best
    have hrec := ih (i + 1)
      (if sqDist px py s.x s.y < best.2 then (i, sqDist px py s.x s.y) else best)
    refine le_trans (by simpa [nearestAux] using hrec) ?_
    split
    · exact le_of_lt (by assumption)
    · exact le_refl _

/-- The scan result is at most the squared distance to every scanned
truth source. -/
theorem nearestAux_snd_le_mem (px py : ℚ) (l : List SimRow) :
    ∀ (i : ℕ) (best : ℕ × ℚ) (t : SimRow), t ∈ l →
      (nearestAux px py l i best).2 ≤ sqDist px py t.x t.y := by
  induction l with
  | nil => intro _ _ t ht; exact absurd ht (by simp)
  | cons s l ih =>
    intro i best t ht
    rcases List.mem_cons.mp ht with hhd | htl
    · subst hhd
      have hrec := nearestAux_snd_le_best px py l (i + 1)
        (if sqDist px py t.x t.y < best.2 then (i, sqDist px py t.x t.y) else best)
      refine le_trans (by simpa [nearestAux] using hrec) ?_
      split
      · exact le_refl _
      · exact le_of_not_lt (by assumption)
    · simpa [nearestAux] using ih (i + 1) _ t htl

/-- The squared distance returned by `nearest` is minimal over the truth
table: the content of the kd-tree nearest-neighbour query of sim.py line
196. -/
theorem nearest_snd_min (px py : ℚ) (sims : List SimRow) (t : SimRow) (ht : t ∈ sims) :
    (nearest px py sims).2 ≤ sqDist px py t.x t.y := by
  match sims, ht with
  | s :: rest, ht =>
    rcases List.mem_cons.mp ht with hhd | htl
    · subst hhd
      simpa [nearest] using nearestAux_snd_le_best px py rest 1 (0, sqDist px py t.x t.y)
    · simpa [nearest] using nearestAux_snd_le_mem px py rest 1 (0, sqDist px py s.x s.y) t htl

/-- Splitting a list by a Boolean predicate partitions its length. -/
theorem length_filter_add_length_filter_not {α : Type} (p : α → Bool) (l : List α) :
    (l.filter p).length + (l.filter fun a => !(p a)).length = l.length := by
  induction l with
  | nil => rfl
  | cons a l ih =>
    by_cases hc : p a = true
    · simp only [List.filter_cons, hc, Bool.not_true, if_pos, List.length_cons, if_neg,
        Bool.false_eq_true, not_false_iff, ite_true, ite_false]
      omega
    · have hc' : p a = false := by simpa using hc
      simp only [List.filter_cons, hc', Bool.not_false, List.length_cons, Bool.false_eq_true,
        ite_false, ite_true]
      omega

/-- A successful ratio computation returns one row per undetected index. -/
theorem computeRatios_length (sims : List SimRow) (filters : List String)
    (avgNoise : Option (List ℚ)) (l : List ℕ) :
    ∀ r : List UnmatchedRow,
      computeRatios sims filters avgNoise l = some r → r.length = l.length := by
  induction l with
  | nil =>
    intro r h
    simp only [computeRatios] at h
    cases h
    rfl
  | cons j js ih =>
    intro r h
    simp only [computeRatios] at h
    cases hn : avgNoise with
    | none => rw [hn] at h; simp at h
    | some noise =>
      rw [hn] at h
      cases hfr : filterRatios (sims.getD j dSim) noise filters 0 with
      | none => dsimp only at h; rw [hfr] at h; simp at h
      | some rv =>
        dsimp only at h
        rw [hfr] at h
        cases hrec : computeRatios sims filters (some noise) js with
        | none => rw [hrec] at h; simp at h
        | some rest =>
          rw [hrec] at h
          simp only [Option.some.injEq] at h
          subst h
          have := ih rest (hn ▸ hrec)
          simp [this]


/-- Structural characterization of a successful `matchToRef` call: the
guard passed, the match table is the per-peak row construction, the index
column is the kd-query index column, and the ratio step succeeded on the
undetected indices. -/
theorem matchToRef_some_elim {peaks : List PeakRow} {sims : List SimRow}
    {filters : List String} {maxSep : ℚ} {poolSize : ℤ} {avgNoise : Option (List ℚ)}
    {res : MatchResult}
    (h : matchToRef peaks sims filters maxSep poolSize avgNoise = some res) :
    peaks ≠ [] ∧ sims ≠ [] ∧ filters ≠ [] ∧
    res.matchTable =
      List.zipWith
        (rowFn sims filters maxSep (matchPairs sims peaks maxSep)
          (emptyPatchOf sims peaks filters) (sedLenOf sims peaks))
        peaks (kdQuery sims peaks poolSize) ∧
    res.idx = (kdQuery sims peaks poolSize).map Prod.fst ∧
    computeRatios sims filters avgNoise (undetected sims peaks maxSep) =
      some res.unmatchedTable := by
  unfold matchToRef at h
  split at h
  · exact absurd h (by simp)
  · rename_i hg
    have hg' : (¬peaks = [] ∧ ¬sims = []) ∧ ¬filters = [] := by
      simpa [Bool.or_eq_true] using hg
    obtain ⟨⟨hp, hs⟩, hf⟩ := hg'
    split at h
    · exact absurd h (by simp)
    · rename_i urows hc
      cases h
      exact ⟨hp, hs, hf, rfl, rfl, hc⟩

/-- Row `i` of a successful match table is the row built from peak `i`
and its nearest-neighbour query result. -/
theorem mtRow_eq {peaks : List PeakRow} {sims : List SimRow} {filters : List String}
    {maxSep : ℚ} {poolSize : ℤ} {avgNoise : Option (List ℚ)}
    (hsome : (matchToRef peaks sims filters maxSep poolSize avgNoise).isSome = true)
    (i : ℕ) (hi : i < peaks.length) :
    mtRow peaks sims filters maxSep poolSize avgNoise i =
      rowFn sims filters maxSep (matchPairs sims peaks maxSep)
        (emptyPatchOf sims peaks filters) (sedLenOf sims peaks)
        (peaks.getD i dPeak) (nearest (peaks.getD i dPeak).x (peaks.getD i dPeak).y sims) := by
  match hres : matchToRef peaks sims filters maxSep poolSize avgNoise with
  | none => rw [hres] at hsome; exact absurd hsome (by simp)
  | some res =>
    obtain ⟨_, _, _, hmt, _, _⟩ := matchToRef_some_elim hres
    have hlen : (kdQuery sims peaks poolSize).length = peaks.length := by
      simp [kdQuery, nnOf]
    have hq : (kdQuery sims peaks poolSize).getD i (0, 0) =
        nearest (peaks.getD i dPeak).x (peaks.getD i dPeak).y sims := by
      unfold kdQuery nnOf
      exact getD_map_of_lt _ peaks i (0, 0) dPeak hi
    unfold mtRow mtGet
    rw [hres]
    show res.matchTable.getD i dRow = _
    rw [hmt, getD_zipWith_of_lt _ peaks (kdQuery sims peaks poolSize) i dRow dPeak (0, 0) hi
      (by rw [hlen]; exact hi), hq]

/-- The match table of a successful call has exactly one row per peak,
and the index column likewise. -/
theorem mt_lengths {peaks : List PeakRow} {sims : List SimRow} {filters : List String}
    {maxSep : ℚ} {poolSize : ℤ} {avgNoise : Option (List ℚ)} {res : MatchResult}
    (h : matchToRef peaks sims filters maxSep poolSize avgNoise = some res) :
    res.matchTable.length = peaks.length ∧ res.idx.length = peaks.length := by
  obtain ⟨_, _, _, hmt, hidx, _⟩ := matchToRef_some_elim h
  constructor
  · rw [hmt]; simp [kdQuery, nnOf]
  · rw [hidx]; simp [kdQuery, nnOf]

/-- Sum of a list divided elementwise equals the divided sum. -/
theorem list_sum_map_div (l : List ℚ) (s : ℚ) :
    (l.map fun v => v / s).sum = l.sum / s := by
  induction l with
  | nil => simp
  | cons a l ih => simp [ih, add_div]

/-! Claim theorems. -/

/-- C9: `matchToRef`'s results do not depend on the `poolSize` parameter:
the kd-tree query assigns every query point its nearest neighbour
independently of how the points are split across worker processes
(`n_jobs` on sim.py line 196 is a parallelism hint only), so both the
selected nearest truth index and the reported distance, and with them the
whole returned triple, agree for any two pool sizes. -/
theorem matchToRef_poolSize_invariant (peaks : List PeakRow) (sims : List SimRow)
    (filters : List String) (maxSep : ℚ) (p₁ p₂ : ℤ) (avgNoise : Option (List ℚ)) :
    kdQuery sims peaks p₁ = kdQuery sims peaks p₂ ∧
    matchToRef peaks sims filters maxSep p₁ avgNoise =
      matchToRef peaks sims filters maxSep p₂ avgNoise :=
  ⟨rfl, rfl⟩

/-- C4 (amended): whenever `matchToRef` returns at all, the match table
and the index column have exactly one entry per peak; but on an empty
peak table or an empty truth table the function raises (kd-tree
construction / query / row-0 indexing fail on empty arrays) instead of
returning empty result tables. -/
theorem matchToRef_row_count (peaks : List PeakRow) (sims : List SimRow)
    (filters : List String) (maxSep : ℚ) (poolSize : ℤ) (avgNoise : Option (List ℚ)) :
    ((matchToRef peaks sims filters maxSep poolSize avgNoise).isSome = true →
      (mtGet peaks sims filters maxSep poolSize avgNoise).matchTable.length = peaks.length ∧
      (mtGet peaks sims filters maxSep poolSize avgNoise).idx.length = peaks.length) ∧
    (peaks = [] ∨ sims = [] →
      matchToRef peaks sims filters maxSep poolSize avgNoise = none) := by
  constructor
  · intro hsome
    match hres : matchToRef peaks sims filters maxSep poolSize avgNoise with
    | none => rw [hres] at hsome; simp at hsome
    | some res =>
      have hl := mt_lengths hres
      unfold mtGet
      rw [hres]
      exact hl
  · intro hemp
    unfold matchToRef
    rcases hemp with h | h
    · subst h; simp
    · subst h; simp

/-- C4 counterexample: on an empty peak table or an empty truth table the
code raises (embedded: returns `none`) — it does not return empty result
tables as the claim states. -/
theorem matchToRef_empty_input_fails :
    matchToRef [] [simA] ["g"] 3 (-1) (some [1]) = none ∧
    matchToRef [peakA] [] ["g"] 3 (-1) (some [1]) = none :=
  ⟨rfl, rfl⟩

/-- C4 witness: a one-peak, one-truth call succeeds with one match row,
and the empty-peak call of the same shape returns `none`. -/
theorem matchToRef_row_count_witness :
    (matchToRef [peakA] [simA] ["i"] 3 2 none).isSome = true ∧
    (mtGet [peakA] [simA] ["i"] 3 2 none).matchTable.length = [peakA].length ∧
    matchToRef [] [simA] ["i"] 3 2 none = none :=
  ⟨by with_unfolding_all decide,
   ((matchToRef_row_count [peakA] [simA] ["i"] 3 2 none).1 (by with_unfolding_all decide)).1,
   (matchToRef_row_count [] [simA] ["i"] 3 2 none).2 (Or.inl rfl)⟩

/-- C10: with the default `avgNoise = None`, any call in which at least
one truth source is undetected dereferences `avgNoise[fidx]` on sim.py
line 232 and raises, so the unmatched table is never returned: a non-None
per-filter noise list is a de-facto precondition whenever a truth source
is undetected. -/
theorem matchToRef_avgNoise_required (peaks : List PeakRow) (sims : List SimRow)
    (filters : List String) (maxSep : ℚ) (poolSize : ℤ)
    (h : undetected sims peaks maxSep ≠ []) :
    matchToRef peaks sims filters maxSep poolSize none = none := by
  unfold matchToRef
  split
  · rfl
  · cases hu : undetected sims peaks maxSep with
    | nil => exact absurd hu h
    | cons j js => rfl

/-- C10 witness: one truth source at the origin, one far-away peak: the
truth source is undetected and the `avgNoise = None` call errors out. -/
theorem matchToRef_avgNoise_required_witness :
    undetected [simB] [peakC] 3 ≠ [] ∧
    matchToRef [peakC] [simB] ["g"] 3 (-1) none = none :=
  ⟨by with_unfolding_all decide,
   matchToRef_avgNoise_required [peakC] [simB] ["g"] 3 (-1) (by with_unfolding_all decide)⟩

/-- C8: the end-to-end scenario with truth table `[(id=1, x=10, y=10,
flux=100)]`, peak table `[(x=10, y=11)]` and `maxSeparation = 3` returns
exactly one match row with `matched = true`, squared distance `1` (the
reported distance is its square root, `1.0`), `duplicate = false`, and no
undetected truth sources. -/
theorem matchToRef_end_to_end_scenario :
    (matchToRef [peakA] [simA] ["i"] 3 (-1) none).map
      (fun r => (r.matchTable.map fun w => (w.matched, w.dist2, w.duplicate),
                 r.idx, r.unmatchedTable.length))
    = some ([(true, 1, false)], [0], 0) := by
  with_unfolding_all decide

/-- C3 evaluation at the failing input: a peak exactly on top of the only
truth source is matched, yet its output SED is the zero vector instead of
the truth SED `[1, 0]` — line 213 of sim.py
(`matchTable["sed"] = emptySed`) lacks the `[~matched]` mask that every
neighbouring zeroing line has, so the SED column of MATCHED rows is also
zeroed, contradicting the comment above it ("Zero out unmatched source
data") and the spec. -/
theorem matchToRef_sed_zeroed_for_matched_row :
    simB.sed = [1, 0] ∧
    (matchToRef [peakB] [simB] ["g"] 3 (-1) none).map
      (fun r => r.matchTable.map fun w => (w.matched, w.sed))
    = some [(true, [0, 0])] := by
  with_unfolding_all decide

/-- C1: a peak is classified matched iff its nearest-neighbour distance
is strictly below `maxSeparation` (sim.py line 198, `matched =
d2 < maxSeparation`); on squared distances: row `i`'s `dist2` is the
kd-query squared distance to peak `i`'s nearest truth source, that
squared distance is minimal over the truth table, the matched flag holds
iff `0 ≤ maxSep` and `dist2 < maxSep²` (equivalently, distance <
maxSep), and at the boundary `dist2 = maxSep²` (distance = maxSep) the
flag is false. -/
theorem matchToRef_matched_iff_below_threshold (peaks : List PeakRow) (sims : List SimRow)
    (filters : List String) (maxSep : ℚ) (poolSize : ℤ) (avgNoise : Option (List ℚ))
    (hsome : (matchToRef peaks sims filters maxSep poolSize avgNoise).isSome = true)
    (i : ℕ) (hi : i < peaks.length) :
    (mtRow peaks sims filters maxSep poolSize avgNoise i).dist2 =
      (nearest (peaks.getD i dPeak).x (peaks.getD i dPeak).y sims).2 ∧
    (∀ t ∈ sims,
      (mtRow peaks sims filters maxSep poolSize avgNoise i).dist2 ≤
        sqDist (peaks.getD i dPeak).x (peaks.getD i dPeak).y t.x t.y) ∧
    ((mtRow peaks sims filters maxSep poolSize avgNoise i).matched = true ↔
      0 ≤ maxSep ∧
        (mtRow peaks sims filters maxSep poolSize avgNoise i).dist2 < maxSep ^ 2) ∧
    ((mtRow peaks sims filters maxSep poolSize avgNoise i).dist2 = maxSep ^ 2 →
      (mtRow peaks sims filters maxSep poolSize avgNoise i).matched = false) := by
  have hrow := mtRow_eq hsome i hi
  rw [hrow]
  refine ⟨rfl, ?_, ?_, ?_⟩
  · intro t ht
    exact nearest_snd_min (peaks.getD i dPeak).x (peaks.getD i dPeak).y sims t ht
  · simp [rowFn, matchedFlag, decide_eq_true_iff]
  · intro hb
    simp only [rowFn] at hb ⊢
    simp only [matchedFlag, hb]
    simp

/-- C1 witness: the one-peak, one-truth scenario satisfies the
hypotheses, and the conclusion is obtained from the theorem. -/
theorem matchToRef_matched_iff_below_threshold_witness :
    (matchToRef [peakA] [simA] ["i"] 3 (-1) none).isSome = true ∧ 0 < [peakA].length ∧
    ((mtRow [peakA] [simA] ["i"] 3 (-1) none 0).dist2 =
      (nearest ([peakA].getD 0 dPeak).x ([peakA].getD 0 dPeak).y [simA]).2 ∧
    (∀ t ∈ [simA],
      (mtRow [peakA] [simA] ["i"] 3 (-1) none 0).dist2 ≤
        sqDist ([peakA].getD 0 dPeak).x ([peakA].getD 0 dPeak).y t.x t.y) ∧
    ((mtRow [peakA] [simA] ["i"] 3 (-1) none 0).matched = true ↔
      0 ≤ (3 : ℚ) ∧ (mtRow [peakA] [simA] ["i"] 3 (-1) none 0).dist2 < (3 : ℚ) ^ 2) ∧
    ((mtRow [peakA] [simA] ["i"] 3 (-1) none 0).dist2 = (3 : ℚ) ^ 2 →
      (mtRow [peakA] [simA] ["i"] 3 (-1) none 0).matched = false)) :=
  ⟨by with_unfolding_all decide, by decide,
   matchToRef_matched_iff_below_threshold [peakA] [simA] ["i"] 3 (-1) none
     (by with_unfolding_all decide) 0 (by decide)⟩

/-- C2: for each peak `i` with nearest truth index `j`, the duplicate
flag of row `i` is true iff the peak is matched and more than one matched
peak shares the truth index `j` (that is, at least one other matched peak
has the same nearest truth index — `matchCount` counts the peak itself);
an unmatched peak is never flagged duplicate (sim.py lines 200, 205-206). -/
theorem matchToRef_duplicate_iff_shared_index (peaks : List PeakRow) (sims : List SimRow)
    (filters : List String) (maxSep : ℚ) (poolSize : ℤ) (avgNoise : Option (List ℚ))
    (hsome : (matchToRef peaks sims filters maxSep poolSize avgNoise).isSome = true)
    (i : ℕ) (hi : i < peaks.length) :
    ((mtRow peaks sims filters maxSep poolSize avgNoise i).matched = true →
      ((mtRow peaks sims filters maxSep poolSize avgNoise i).duplicate = true ↔
        1 < matchCount (matchPairs sims peaks maxSep)
              (nearest (peaks.getD i dPeak).x (peaks.getD i dPeak).y sims).1)) ∧
    ((mtRow peaks sims filters maxSep poolSize avgNoise i).matched = false →
      (mtRow peaks sims filters maxSep poolSize avgNoise i).duplicate = false) := by
  have hrow := mtRow_eq hsome i hi
  rw [hrow]
  constructor
  · intro hm
    simp only [rowFn] at hm ⊢
    rw [hm, Bool.true_and, decide_eq_true_iff]
  · intro hm
    simp only [rowFn] at hm ⊢
    rw [hm, Bool.false_and]

/-- C2 witness: the duplicate scenario (two peaks on the first of two
truth sources) satisfies the hypotheses, and the conclusion is obtained
from the theorem. -/
theorem matchToRef_duplicate_iff_shared_index_witness :
    (matchToRef [peakB, peakB] [simB, simC] ["g"] 3 (-1) (some [1])).isSome = true ∧
    0 < [peakB, peakB].length ∧
    (((mtRow [peakB, peakB] [simB, simC] ["g"] 3 (-1) (some [1]) 0).matched = true →
      ((mtRow [peakB, peakB] [simB, simC] ["g"] 3 (-1) (some [1]) 0).duplicate = true ↔
        1 < matchCount (matchPairs [simB, simC] [peakB, peakB] 3)
              (nearest ([peakB, peakB].getD 0 dPeak).x
                ([peakB, peakB].getD 0 dPeak).y [simB, simC]).1)) ∧
    ((mtRow [peakB, peakB] [simB, simC] ["g"] 3 (-1) (some [1]) 0).matched = false →
      (mtRow [peakB, peakB] [simB, simC] ["g"] 3 (-1) (some [1]) 0).duplicate = false)) :=
  ⟨by with_unfolding_all decide, by decide,
   matchToRef_duplicate_iff_shared_index [peakB, peakB] [simB, simC] ["g"] 3 (-1) (some [1])
     (by with_unfolding_all decide) 0 (by decide)⟩

/-- C6: in the peak tables built by `buildPeakTable` and
`buildFootprintPeakTable`, every row carries the blended flag of the
parent it came from, true exactly when that parent's footprint holds at
least two peaks (so a single-peak parent is never blended). -/
theorem peakTable_blended_iff_two_peaks (srcs : List MergedSource)
    (fpPeaks : List SimPeak) (sid : Option ℤ) (r₁ r₂ : PeakRow)
    (h₁ : r₁ ∈ buildPeakTable srcs) (h₂ : r₂ ∈ buildFootprintPeakTable fpPeaks sid) :
    (∃ src ∈ srcs, r₁.parent = src.sid ∧ (r₁.blended = true ↔ 2 ≤ src.peaks.length)) ∧
    (r₂.blended = true ↔ 2 ≤ fpPeaks.length) := by
  constructor
  · unfold buildPeakTable at h₁
    rw [List.mem_flatMap] at h₁
    obtain ⟨src, hsrc, hr⟩ := h₁
    rw [List.mem_map] at hr
    obtain ⟨q, _, rfl⟩ := hr
    exact ⟨src, hsrc, rfl, by simp⟩
  · unfold buildFootprintPeakTable at h₂
    rw [List.mem_map] at h₂
    obtain ⟨q, _, rfl⟩ := h₂
    simp

/-- C6 witness: concrete two-parent catalog (one isolated peak, one
two-peak blend) and a one-peak footprint; the hypotheses are discharged
on explicit rows. -/
theorem peakTable_blended_iff_two_peaks_witness :
    (({ parent := 2, peakIdx := 0, x := 1, y := 1, blended := true } : PeakRow) ∈
      buildPeakTable srcsA) ∧
    (({ parent := 5, peakIdx := 0, x := 3, y := 4, blended := false } : PeakRow) ∈
      buildFootprintPeakTable [{ ix := 3, iy := 4 }] (some 5)) ∧
    ((∃ src ∈ srcsA,
        ({ parent := 2, peakIdx := 0, x := 1, y := 1, blended := true } : PeakRow).parent =
          src.sid ∧
        (({ parent := 2, peakIdx := 0, x := 1, y := 1, blended := true } : PeakRow).blended =
            true ↔ 2 ≤ src.peaks.length)) ∧
      (({ parent := 5, peakIdx := 0, x := 3, y := 4, blended := false } : PeakRow).blended =
          true ↔ 2 ≤ ([{ ix := 3, iy := 4 }] : List SimPeak).length)) :=
  ⟨by with_unfolding_all decide, by with_unfolding_all decide,
   peakTable_blended_iff_two_peaks srcsA [{ ix := 3, iy := 4 }] (some 5) _ _
     (by with_unfolding_all decide) (by with_unfolding_all decide)⟩

/-- C7: for every row index inside the table, the normalization returned
by `calculateSedsFromFlux` equals the sum of that row's per-filter
fluxes, and whenever that sum is nonzero, the returned SED row sums to 1
(exactly, in rational arithmetic — the embedding of "1.0 within floating
tolerance"). -/
theorem calculateSedsFromFlux_unit_sum (tbl : List (String → ℚ)) (filters : List String)
    (i : ℕ) (hi : i < tbl.length) :
    (calculateSedsFromFlux tbl filters).2.getD i 0 =
      (filters.map fun f => tbl.getD i (fun _ => 0) f).sum ∧
    ((filters.map fun f => tbl.getD i (fun _ => 0) f).sum ≠ 0 →
      ((calculateSedsFromFlux tbl filters).1.getD i []).sum = 1) := by
  have hlen : (tbl.map fun row => filters.map fun f => row f).length = tbl.length := by
    simp
  have h₁ : (tbl.map fun row => filters.map fun f => row f).getD i []
      = filters.map fun f => tbl.getD i (fun _ => 0) f :=
    getD_map_of_lt _ tbl i [] (fun _ => 0) hi
  have h₂ : ((tbl.map fun row => filters.map fun f => row f).map List.sum).getD i 0
      = List.sum ((tbl.map fun row => filters.map fun f => row f).getD i []) :=
    getD_map_of_lt _ _ i 0 [] (by rw [hlen]; exact hi)
  constructor
  · simp only [calculateSedsFromFlux]
    rw [h₂, h₁]
  · intro hs
    simp only [calculateSedsFromFlux]
    rw [getD_zipWith_of_lt _ _ _ i [] [] 0 (by simpa using hi) (by simpa using hi)]
    rw [h₁, h₂, h₁, list_sum_map_div]
    exact div_self hs

/-- C7 witness: a single row with flux 2 in each of two filters has
normalization 4 and a SED summing to 1. -/
theorem calculateSedsFromFlux_unit_sum_witness :
    0 < ([fun _ => (2 : ℚ)] : List (String → ℚ)).length ∧
    ((["g", "r"].map fun f =>
        ([fun _ => (2 : ℚ)] : List (String → ℚ)).getD 0 (fun _ => 0) f).sum ≠ 0) ∧
    (calculateSedsFromFlux [fun _ => (2 : ℚ)] ["g", "r"]).2.getD 0 0 =
      (["g", "r"].map fun f =>
        ([fun _ => (2 : ℚ)] : List (String → ℚ)).getD 0 (fun _ => 0) f).sum ∧
    ((calculateSedsFromFlux [fun _ => (2 : ℚ)] ["g", "r"]).1.getD 0 []).sum = 1 :=
  ⟨by decide, by with_unfolding_all decide,
   (calculateSedsFromFlux_unit_sum [fun _ => (2 : ℚ)] ["g", "r"] 0 (by decide)).1,
   (calculateSedsFromFlux_unit_sum [fun _ => (2 : ℚ)] ["g", "r"] 0 (by decide)).2
     (by with_unfolding_all decide)⟩

/-- Every matched truth index is an index into the truth table. -/
theorem matchedIdxList_lt (sims : List SimRow) (peaks : List PeakRow) (maxSep : ℚ)
    (hs : sims ≠ []) : ∀ j ∈ matchedIdxList sims peaks maxSep, j < sims.length := by
  intro j hj
  simp only [matchedIdxList, List.mem_map] at hj
  obtain ⟨q, hq, rfl⟩ := hj
  obtain ⟨hq1, _⟩ := List.mem_filter.mp hq
  simp only [matchPairs, List.mem_map] at hq1
  obtain ⟨w, hw, rfl⟩ := hq1
  simp only [nnOf, List.mem_map] at hw
  obtain ⟨p, _, rfl⟩ := hw
  exact nearest_fst_lt p.x p.y sims hs

/-- The undetected index list has `M` minus the number of distinct
matched truth indices entries. -/
theorem undetected_length (sims : List SimRow) (peaks : List PeakRow) (maxSep : ℚ)
    (hs : sims ≠ []) :
    (undetected sims peaks maxSep).length =
      sims.length - (matchedIdxList sims peaks maxSep).dedup.length := by
  have hkey : ((List.range sims.length).filter fun j =>
      decide (j ∈ matchedIdxList sims peaks maxSep)).length =
      (matchedIdxList sims peaks maxSep).dedup.length := by
    apply List.Perm.length_eq
    rw [List.perm_ext_iff_of_nodup ((List.nodup_range _).filter _) (List.nodup_dedup _)]
    intro a
    simp only [List.mem_filter, List.mem_range, List.mem_dedup, decide_eq_true_iff]
    constructor
    · rintro ⟨_, h⟩; exact h
    · intro h; exact ⟨matchedIdxList_lt sims peaks maxSep hs a h, h⟩
  have hsplit := length_filter_add_length_filter_not
    (fun j => decide (j ∈ matchedIdxList sims peaks maxSep)) (List.range sims.length)
  have hneg : undetected sims peaks maxSep = (List.range sims.length).filter fun j =>
      !(decide (j ∈ matchedIdxList sims peaks maxSep)) := by
    simp only [undetected, decide_not]
  rw [hneg]
  rw [List.length_range] at hsplit
  omega

/-- C5: in a successful call, the unmatched (undetected truth sources)
table has exactly `M` minus the number of distinct truth indices matched
within threshold rows, where `M` is the truth-table size (sim.py lines
221-227). -/
theorem matchToRef_undetected_count (peaks : List PeakRow) (sims : List SimRow)
    (filters : List String) (maxSep : ℚ) (poolSize : ℤ) (avgNoise : Option (List ℚ))
    (hsome : (matchToRef peaks sims filters maxSep poolSize avgNoise).isSome = true) :
    (mtGet peaks sims filters maxSep poolSize avgNoise).unmatchedTable.length =
      sims.length - (matchedIdxList sims peaks maxSep).dedup.length := by
  match hres : matchToRef peaks sims filters maxSep poolSize avgNoise with
  | none => rw [hres] at hsome; simp at hsome
  | some res =>
    obtain ⟨_, hs, _, _, _, hcr⟩ := matchToRef_some_elim hres
    have hlen := computeRatios_length sims filters avgNoise (undetected sims peaks maxSep)
      res.unmatchedTable hcr
    unfold mtGet
    rw [hres]
    simp only [Option.getD_some]
    rw [hlen]
    exact undetected_length sims peaks maxSep hs

/-- C5 witness: two truth sources, two coincident peaks matching the
first one: one distinct matched index, so the unmatched table has
`2 - 1 = 1` row. -/
theorem matchToRef_undetected_count_witness :
    (matchToRef [peakB, peakB] [simB, simC] ["g"] 3 1 (some [1])).isSome = true ∧
    (mtGet [peakB, peakB] [simB, simC] ["g"] 3 1 (some [1])).unmatchedTable.length =
      ([simB, simC] : List SimRow).length -
        (matchedIdxList [simB, simC] [peakB, peakB] 3).dedup.length :=
  ⟨by with_unfolding_all decide,
   matchToRef_undetected_count [peakB, peakB] [simB, simC] ["g"] 3 1 (some [1])
     (by with_unfolding_all decide)⟩

end DeblenderSim
